import Mathlib

/-!
Verification of the review-scheduling logic of the Cantonese vocab trainer
(`src/src/App.jsx`), as a shallow embedding in Lean.

Modelling conventions:

* A JavaScript `Date` value is its numeric time value in milliseconds since
  the epoch, modelled as `Int`.  `new Date(s)` applied to a card's
  `NextReviewTime` string either yields a valid instant or an *Invalid Date*
  (time value `NaN`); we model the parse result as `Option Int`, with `none`
  for Invalid Date.  A relational comparison (`<=`) against `NaN` is `false`
  in JavaScript; subtraction involving `NaN` yields `NaN`, and
  `Array.prototype.sort` treats a comparator result of `NaN` as `+0`
  (ES2023 SortCompare step 4).  These two facts fix the two `none` branches
  of `dateLe` and `reviewCompare` below.
* `Array.prototype.sort` with a comparator is required to be stable
  (ES2019 onward).  For a consistent comparator — integer subtraction of the
  time values is one — the stable sorted order is unique, so we model it
  with `List.mergeSort`, which Lean's library proves stable.
* React state (`vocabCards`, `currentCardIndex`, `loading`, `error`) is an
  explicit `AppState` record; an `async` handler becomes a function from the
  outcomes of its awaited network calls (fetch results, persist results) and
  the wall-clock instants it reads to the state it leaves behind, paired
  with the value its promise resolves to.
-/

/-- A row of the vocabulary sheet, as consumed by `App.jsx`.
`NextReviewTime` is the result of `new Date(card.NextReviewTime)`:
`some t` for a valid instant `t` (ms since epoch), `none` for Invalid Date. -/
structure VocabCard where
  ID : String
  English : String
  Cantonese : String
  Jyutping : String
  ProficiencyLevel : Int
  NextReviewTime : Option Int
deriving Repr, DecidableEq

/-- JavaScript `d <= now` on a `Date` value `d`: `false` when `d` is
Invalid Date (`NaN` compares false), otherwise numeric comparison. -/
def dateLe (d : Option Int) (now : Int) : Bool :=
  match d with
  | some t => t ≤ now
  | none => false

/-- The filter callback of `App.jsx` lines 37–42: a card is kept iff
`new Date(card.NextReviewTime) <= now`. -/
def isDue (now : Int) (card : VocabCard) : Bool :=
  dateLe card.NextReviewTime now

/-- The sort comparator of `App.jsx` line 43:
`new Date(a.NextReviewTime) - new Date(b.NextReviewTime)`.
If either date is invalid the subtraction is `NaN`, which
`Array.prototype.sort` treats as `+0`. -/
def reviewCompare (a b : VocabCard) : Int :=
  match a.NextReviewTime, b.NextReviewTime with
  | some x, some y => x - y
  | _, _ => 0

/-- "`a` need not come after `b`": the comparator is non-positive.  A stable
sort with comparator `reviewCompare` sorts with respect to this relation. -/
def sortLe (a b : VocabCard) : Bool :=
  reviewCompare a b ≤ 0

/-- `App.jsx` lines 36–43 (`const dueCards = data.filter(...).sort(...)`):
keep the cards whose `NextReviewTime` is at or before `now`, then stable-sort
them by their comparator order. -/
def dueCards (data : List VocabCard) (now : Int) : List VocabCard :=
  (data.filter (fun card => isDue now card)).mergeSort sortLe

/-- The component state of `App` (lines 10–16): the due list, the index of
the displayed card, the loading flag and the error message (`none` = the JS
`null`). -/
structure AppState where
  vocabCards : List VocabCard
  currentCardIndex : Nat
  loading : Bool
  error : Option String
deriving Repr, DecidableEq

/-- Outcome of the awaited `fetch`+`json` round trip for `getVocabs`:
either the parsed card array, or the thrown error's message (HTTP error or
network failure). -/
inductive FetchResult where
  | success (data : List VocabCard)
  | failure (msg : String)
deriving Repr, DecidableEq

/-- The query-string payload of the `updateVocab` call built in
`App.jsx` lines 64–69. -/
structure PersistRequest where
  id : String
  proficiencyLevel : Int
  nextReviewTime : Int
deriving Repr, DecidableEq

/-- Outcome of the awaited `updateVocab` round trip: success, or the thrown
error's message (HTTP error, network failure, or `result.success` false with
`result.message`). -/
inductive PersistResult where
  | success
  | failure (msg : String)
deriving Repr, DecidableEq

/-- `fetchVocabCards` (`App.jsx` lines 21–54), given the outcome of its
network round trip and the instant `now` read at line 35.  On success the
state holds the filtered-and-sorted due list with the index reset to 0 and
no error; on failure only the error message changes (the previous card list
and index survive).  `loading` ends `false` either way (the `finally`). -/
def fetchVocabCards (result : FetchResult) (now : Int) (st : AppState) : AppState :=
  match result with
  | .success data =>
      { vocabCards := dueCards data now
        currentCardIndex := 0
        loading := false
        error := none }
  | .failure msg =>
      { st with loading := false
                error := some ("Failed to fetch vocabulary: " ++ msg) }

/-- The request `updateCardState` (`App.jsx` lines 58–69) sends: the card id,
the proficiency level it was given, and `nextReviewTime` 90 minutes (in
milliseconds) after the submission instant `now`. -/
def updateCardRequest (cardId : String) (proficiencyLevel : Int) (now : Int) :
    PersistRequest :=
  { id := cardId
    proficiencyLevel := proficiencyLevel
    nextReviewTime := now + 90 * 60 * 1000 }

/-- `updateCardState` (`App.jsx` lines 58–90), given the repository's
response to the persist request it sends, and — because a successful persist
`await`s a fresh `fetchVocabCards()` — the outcome and instant of that
re-fetch.  Returns the state it leaves behind paired with the value its
promise resolves to, which is the JS `undefined` (`Unit.unit`): the computed
`(proficiencyLevel, nextReviewTime)` pair travels only in the persist
request.  On persist failure the `catch` sets the error message and nothing
else changes. -/
def updateCardState (cardId : String) (proficiencyLevel : Int) (now : Int)
    (persist : PersistRequest → PersistResult)
    (refetch : FetchResult) (refetchNow : Int) (st : AppState) :
    AppState × Unit :=
  match persist (updateCardRequest cardId proficiencyLevel now) with
  | .success => (fetchVocabCards refetch refetchNow st, ())
  | .failure msg =>
      ({ st with error := some ("Failed to update card: " ++ msg) }, ())

/-- `App.jsx` lines 105–109: the new proficiency is the old one plus the
increase, then capped at 5, then raised to 1 (two sequential `if`s). -/
def newProficiencyOf (proficiencyLevel proficiencyIncrease : Int) : Int :=
  let newProficiency := proficiencyLevel + proficiencyIncrease
  let newProficiency := if newProficiency > 5 then 5 else newProficiency
  if newProficiency < 1 then 1 else newProficiency

/-- `handleNextCard` (`App.jsx` lines 101–113).  Returns `none` for the run
that throws (indexing past the end of a non-empty list yields `undefined`
and reading `.ProficiencyLevel` of it is a TypeError); otherwise `some` of
the state left behind paired with the list of persist requests issued.  With
an empty due list the guard at line 102 returns at once: no request, state
untouched. -/
def handleNextCard (proficiencyIncrease : Int) (now : Int)
    (persist : PersistRequest → PersistResult)
    (refetch : FetchResult) (refetchNow : Int) (st : AppState) :
    Option (AppState × List PersistRequest) :=
  if st.vocabCards.length = 0 then
    some (st, [])
  else
    match st.vocabCards[st.currentCardIndex]? with
    | none => none
    | some currentCard =>
        let newProficiency := newProficiencyOf currentCard.ProficiencyLevel proficiencyIncrease
        some ((updateCardState currentCard.ID newProficiency now persist refetch refetchNow st).1,
              [updateCardRequest currentCard.ID newProficiency now])

/-- What the conditional rendering of `App.jsx` lines 117–170 shows. -/
inductive Screen where
  | loadingScreen
  | errorScreen (msg : String)
  | noCardsDue
  | trainer (card : Option VocabCard) (cardsDue : Nat)
deriving Repr, DecidableEq

/-- The render branches of `App.jsx` lines 117–170: loading first, then a
non-null error, then the empty due list ("No cards due for review!"), else
the trainer with the current card and the due count.  Error strings set by
the app are non-empty, so JS truthiness of `error` coincides with the
`Option` match. -/
def render (st : AppState) : Screen :=
  if st.loading then
    .loadingScreen
  else
    match st.error with
    | some msg => .errorScreen msg
    | none =>
        if st.vocabCards.length = 0 then
          .noCardsDue
        else
          .trainer st.vocabCards[st.currentCardIndex]? st.vocabCards.length

/-! ### Helper facts about the comparator and the due filter -/

/-- Comparison of the time values with a default for the (never-sorted)
invalid dates: a total, transitive relation that agrees with `sortLe` on
cards whose date is valid. -/
def keyLe (a b : VocabCard) : Bool :=
  a.NextReviewTime.getD 0 ≤ b.NextReviewTime.getD 0

theorem isDue_iff_exists {now : Int} {c : VocabCard} :
    isDue now c = true ↔ ∃ t, c.NextReviewTime = some t ∧ t ≤ now := by
  cases h : c.NextReviewTime <;> simp [isDue, dateLe, h]

theorem sortLe_eq_keyLe_of_due {now : Int} {a b : VocabCard}
    (ha : isDue now a = true) (hb : isDue now b = true) :
    sortLe a b = keyLe a b := by
  obtain ⟨x, hx, -⟩ := isDue_iff_exists.mp ha
  obtain ⟨y, hy, -⟩ := isDue_iff_exists.mp hb
  simp only [sortLe, reviewCompare, keyLe, hx, hy, Option.getD_some]
  simp only [decide_eq_decide]
  omega

theorem keyLe_trans : ∀ (a b c : VocabCard), keyLe a b → keyLe b c → keyLe a c := by
  intro a b c
  simp only [keyLe, decide_eq_true_eq]
  omega

theorem keyLe_total : ∀ (a b : VocabCard), keyLe a b || keyLe b a := by
  intro a b
  simp only [keyLe, Bool.or_eq_true, decide_eq_true_eq]
  omega

/-- On the filtered (all-valid-dates) list the JS comparator order coincides
with `keyLe`, so the stable sort may be read as a stable sort by `keyLe`. -/
theorem dueCards_eq_mergeSort_keyLe (S : List VocabCard) (now : Int) :
    dueCards S now = (S.filter (fun c => isDue now c)).mergeSort keyLe := by
  have h := List.map_mergeSort (f := id) (l := S.filter (fun c => isDue now c))
      (r := sortLe) (s := keyLe) ?_
  · simpa using h
  · intro a ha b hb
    exact sortLe_eq_keyLe_of_due (List.mem_filter.mp ha).2 (List.mem_filter.mp hb).2

/-! ### Claim theorems -/

/-- C3: for every current proficiency `p` and every integer delta `d`, the
review handler computes `newProficiencyLevel = clamp(p + d, 1, 5)`; the
result always lies in `[1, 5]`, overshooting deltas saturate at the boundary
(`p = 5, d = 1` gives 5; `p = 1, d = -1` gives 1), and out-of-range inputs
are clamped, never rejected (the function is total). -/
theorem newProficiencyOf_clamp (p d : Int) :
    newProficiencyOf p d = max 1 (min 5 (p + d))
    ∧ 1 ≤ newProficiencyOf p d ∧ newProficiencyOf p d ≤ 5
    ∧ newProficiencyOf 5 1 = 5 ∧ newProficiencyOf 1 (-1) = 1 := by
  refine ⟨?_, ?_, ?_, by decide, by decide⟩ <;>
    · simp only [newProficiencyOf]
      split <;> split <;> omega

/-- C4: the persist request built by `updateCardState` carries
`nextReviewTime = now + 90` minutes (in milliseconds), where `now` is the
submission instant passed in — the card's original due time does not enter
the computation at all — and the interval is the same constant for every
proficiency level. -/
theorem updateCardRequest_fixed_interval (cardId : String) (p q now : Int) :
    (updateCardRequest cardId p now).nextReviewTime = now + 90 * 60 * 1000
    ∧ (updateCardRequest cardId p now).nextReviewTime
        = (updateCardRequest cardId q now).nextReviewTime := by
  exact ⟨rfl, rfl⟩

/-- C7: the due-queue selector is a pure function of exactly its two inputs,
the snapshot and the reference instant: two runs on the same inputs are
identical, the output is a permutation of the due sublist of the snapshot
(so every returned card is an unmodified element of the input), and no card
outside the snapshot ever appears. -/
theorem dueCards_pure (S : List VocabCard) (now : Int) :
    dueCards S now = dueCards S now
    ∧ (dueCards S now).Perm (S.filter (fun c => isDue now c))
    ∧ ∀ c ∈ dueCards S now, c ∈ S := by
  refine ⟨rfl, List.mergeSort_perm _ _, ?_⟩
  intro c hc
  exact (List.mem_filter.mp (List.mem_mergeSort.mp hc)).1

/-- C8: for the empty snapshot and any instant the selector returns the
empty list as an ordinary (non-error) result, and after a successful fetch
of an empty snapshot the app renders the terminal "No cards due for review!"
screen, not an error. -/
theorem dueCards_empty_snapshot (now : Int) (st : AppState) :
    dueCards [] now = []
    ∧ fetchVocabCards (.success []) now st
        = { vocabCards := [], currentCardIndex := 0, loading := false, error := none }
    ∧ render (fetchVocabCards (.success []) now st) = .noCardsDue := by
  have h : dueCards [] now = [] := by
    simp [dueCards]
  refine ⟨h, ?_, ?_⟩ <;> simp [fetchVocabCards, render, h]

/-- C9: a card whose `NextReviewTime` string does not parse (Invalid Date)
is never due: the JS comparison `new Date(invalid) <= now` is `false`, so
the selector excludes the card without raising an error, for every snapshot
and every instant. -/
theorem invalidDate_never_due (S : List VocabCard) (now : Int) (c : VocabCard)
    (h : c.NextReviewTime = none) :
    isDue now c = false ∧ c ∉ dueCards S now := by
  have h1 : isDue now c = false := by simp [isDue, dateLe, h]
  refine ⟨h1, fun hc => ?_⟩
  have := (List.mem_filter.mp (List.mem_mergeSort.mp hc)).2
  simp [h1] at this

/-- Witness for `invalidDate_never_due` at a concrete unparseable card. -/
theorem invalidDate_never_due_w :
    isDue 100 ⟨"A", "one", "jat1", "jat1", 3, none⟩ = false
    ∧ ⟨"A", "one", "jat1", "jat1", 3, none⟩
        ∉ dueCards [⟨"A", "one", "jat1", "jat1", 3, none⟩] 100 :=
  invalidDate_never_due [⟨"A", "one", "jat1", "jat1", 3, none⟩] 100
    ⟨"A", "one", "jat1", "jat1", 3, none⟩ rfl

/-- C10: invoking the review handler when the due list is empty is a no-op:
the guard returns before touching anything, so no persist request is issued
and the state (due list, index, loading, error) is returned unchanged. -/
theorem handleNextCard_empty_noop (d now : Int)
    (persist : PersistRequest → PersistResult)
    (refetch : FetchResult) (refetchNow : Int) (st : AppState)
    (h : st.vocabCards = []) :
    handleNextCard d now persist refetch refetchNow st = some (st, []) := by
  simp [handleNextCard, h]

/-- Witness for `handleNextCard_empty_noop` at a concrete empty-list state. -/
theorem handleNextCard_empty_noop_w :
    handleNextCard 1 50 (fun _ => .success) (.success []) 60
        ⟨[], 0, false, none⟩
      = some (⟨[], 0, false, none⟩, []) :=
  handleNextCard_empty_noop 1 50 (fun _ => .success) (.success []) 60
    ⟨[], 0, false, none⟩ rfl

/-- C5 counterexample: the claim that on persist failure "the engine's
computed new (proficiencyLevel, nextReviewTime) pair is still returned to
the caller" is false.  Two submissions whose computed pairs differ — here
`(3, 0 + 90min)` versus `(5, 999 + 90min)` — both fail to persist and return
*identical* values to the caller (the promise resolves to `undefined` and
the only state change is the error message), so the caller cannot recover
the pair and must recompute before retrying. -/
theorem updateCardState_pair_not_returned :
    updateCardRequest "A" 3 0 ≠ updateCardRequest "A" 5 999
    ∧ updateCardState "A" 3 0 (fun _ => .failure "boom") (.success []) 0
        ⟨[], 0, false, none⟩
      = updateCardState "A" 5 999 (fun _ => .failure "boom") (.success []) 0
        ⟨[], 0, false, none⟩ := by
  exact ⟨by decide, rfl⟩

/-- C5 (amended): when the persist round trip fails, the failure is
surfaced to the caller as the error state "Failed to update card: <reason>";
everything else — due list, index, loading — is unchanged, and the computed
`(proficiencyLevel, nextReviewTime)` pair is *not* part of the returned
value (the promise resolves to `undefined`), so a retry must recompute it. -/
theorem updateCardState_persist_failure (cardId : String) (p now : Int)
    (persist : PersistRequest → PersistResult) (refetch : FetchResult)
    (refetchNow : Int) (st : AppState) (msg : String)
    (h : persist (updateCardRequest cardId p now) = .failure msg) :
    updateCardState cardId p now persist refetch refetchNow st
      = ({ st with error := some ("Failed to update card: " ++ msg) }, ()) := by
  simp [updateCardState, h]

/-- Witness for `updateCardState_persist_failure` at a concrete failing
persist. -/
theorem updateCardState_persist_failure_w :
    updateCardState "A" 3 0 (fun _ => .failure "boom") (.success []) 0
        ⟨[], 0, false, none⟩
      = (⟨[], 0, false, some "Failed to update card: boom"⟩, ()) :=
  updateCardState_persist_failure "A" 3 0 (fun _ => .failure "boom")
    (.success []) 0 ⟨[], 0, false, none⟩ "boom" rfl

/-- C6: a failed snapshot fetch is surfaced as the distinct error state
"Failed to fetch vocabulary: <reason>" and rendered as the error screen,
which is observably different from what *any* successful fetch renders — in
particular different from the zero-cards-due screen — so a failed fetch is
never presented as an empty due-queue. -/
theorem fetchVocabCards_failure_distinct (msg : String) (now : Int) (st : AppState)
    (data : List VocabCard) (now' : Int) (st' : AppState) :
    (fetchVocabCards (.failure msg) now st).error
        = some ("Failed to fetch vocabulary: " ++ msg)
    ∧ render (fetchVocabCards (.failure msg) now st)
        = .errorScreen ("Failed to fetch vocabulary: " ++ msg)
    ∧ render (fetchVocabCards (.failure msg) now st)
        ≠ render (fetchVocabCards (.success data) now' st') := by
  refine ⟨rfl, rfl, ?_⟩
  by_cases h : dueCards data now' = [] <;>
    simp [fetchVocabCards, render, h]

/-- C1: a card is in the due queue iff it is in the snapshot and its
`nextReviewTime` is at or before `now` (inclusive boundary), and it appears
with exactly the multiplicity it has in the snapshot — in particular exactly
once when the snapshot lists it once — while a card that is not due never
appears; a duplicate-free snapshot yields a duplicate-free queue. -/
theorem dueCards_mem_count (S : List VocabCard) (now : Int) (c : VocabCard) :
    (c ∈ dueCards S now ↔ (c ∈ S ∧ isDue now c = true))
    ∧ (dueCards S now).count c = (if isDue now c = true then S.count c else 0)
    ∧ (S.Nodup → (dueCards S now).Nodup) := by
  have hperm : (dueCards S now).Perm (S.filter (fun x => isDue now x)) :=
    List.mergeSort_perm _ _
  refine ⟨?_, ?_, ?_⟩
  · rw [hperm.mem_iff, List.mem_filter]
  · rw [hperm.count_eq]
    by_cases h : isDue now c = true
    · rw [if_pos h]
      exact List.count_filter h
    · rw [if_neg h, List.count_eq_zero]
      exact fun hc => h (List.mem_filter.mp hc).2
  · exact fun hnd => hperm.nodup_iff.mpr (hnd.filter _)

/-- C2: the due queue is sorted non-decreasingly by `nextReviewTime`, and it
is stable: for every time value, the cards carrying that value appear in
exactly the relative order they have in the input snapshot (the filtered
snapshot keeps the snapshot's iteration order). -/
theorem dueCards_sorted_stable (S : List VocabCard) (now : Int) :
    (dueCards S now).Pairwise
      (fun a b => ∀ x y, a.NextReviewTime = some x → b.NextReviewTime = some y → x ≤ y)
    ∧ ∀ k : Option Int,
        (dueCards S now).filter (fun c => decide (c.NextReviewTime = k))
          = (S.filter (fun c => isDue now c)).filter
              (fun c => decide (c.NextReviewTime = k)) := by
  rw [dueCards_eq_mergeSort_keyLe]
  constructor
  · have hp := List.sorted_mergeSort keyLe_trans keyLe_total
      (S.filter (fun c => isDue now c))
    refine hp.imp ?_
    intro a b hab x y hx hy
    simp only [keyLe, hx, hy, Option.getD_some, decide_eq_true_eq] at hab
    exact hab
  · intro k
    have hpair : ((S.filter (fun c => isDue now c)).filter
        (fun c => decide (c.NextReviewTime = k))).Pairwise (fun a b => keyLe a b = true) := by
      refine List.pairwise_of_forall_mem_list ?_
      intro a ha b hb
      have ha2 := (List.mem_filter.mp ha).2
      have hb2 := (List.mem_filter.mp hb).2
      simp only [decide_eq_true_eq] at ha2 hb2
      simp [keyLe, ha2, hb2]
    have hsub : List.Sublist
        ((S.filter (fun c => isDue now c)).filter
          (fun c => decide (c.NextReviewTime = k)))
        ((S.filter (fun c => isDue now c)).mergeSort keyLe) :=
      List.sublist_mergeSort keyLe_trans keyLe_total hpair (List.filter_sublist _)
    have hsub2 := hsub.filter (fun c => decide (c.NextReviewTime = k))
    rw [List.filter_eq_self.mpr (fun a ha => (List.mem_filter.mp ha).2)] at hsub2
    have hlen := ((List.mergeSort_perm (S.filter (fun c => isDue now c)) keyLe).filter
        (fun c => decide (c.NextReviewTime = k))).length_eq
    exact (hsub2.eq_of_length hlen.symm).symm
